import Mathlib

/-!
Shallow embedding of the Tendermint consensus core of the repository:
the message store, the consensus message codec, the accountability proof
codec, and the core state machine (`handleMsg`,
`handleCurrentHeightMessage`, `checkUponConditions`), together with
theorems settling the specification claims about them.

Go machine integers are modelled as `Nat`/`Int` with explicit two's
complement conversion where the source casts between `uint64` and
`int64`.  Fallible Go functions returning `error` are modelled with
`Except`; Go run-time panics (nil-pointer dereferences) are modelled by
an explicit `GoPanic` exception layer.  Functions of the repository that
are referenced by the embedded files but whose implementations are not
part of the given sources are either abstracted as function parameters
(quorum predicates, crypto checks, codecs) or, where a claim depends on
their behaviour, modelled from the specification and marked as such.
-/

deriving instance DecidableEq for Except

namespace Autonity

/-- Content hash (32 bytes in the source), modelled abstractly as a
natural number.  `common.Hash{}` is `0`. -/
abbrev Hash := Nat

/-- Account address (20 bytes in the source), modelled abstractly. -/
abbrev Address := Nat

/-- Opaque handle for a block header, used only as the committee handle
passed to the quorum predicates of the message cache. -/
abbrev Header := Nat

/-- Go `var NilValue = common.Hash{}` and `nilValue common.Hash = common.Hash{}`. -/
def nilValue : Hash := 0

/-- The consensus-relevant view of `types.Block`: its number and hash. -/
structure Block where
  number : Nat
  hash : Hash
deriving DecidableEq, Repr

/-- Value of the Go cast `uint64(x)` applied to an `int64` value. -/
def u64ofInt (x : Int) : Nat := (x % (2 ^ 64 : Int)).toNat

/-- Value of the Go cast `int64(u)` applied to a `uint64` value. -/
def i64ofNat (u : Nat) : Int :=
  if u % 2 ^ 64 < 2 ^ 63 then ((u % 2 ^ 64 : Nat) : Int)
  else ((u % 2 ^ 64 : Nat) : Int) - 2 ^ 64

/-! ## Message Store (`MsgStore`, file `src/unnamed/part_000`)

The Go store is a nested map
`map[Height]map[Round]map[MsgType]map[Address][]*Message` guarded by a
lock; absent keys behave as empty lists, so the nested map is modelled
as a total function into lists. -/

/-- The store's view of a consensus message: the key fields `H()`,
`Round()`, `Code`, `Address` used for indexing, plus an abstract payload
that distinguishes distinct messages with equal keys. -/
structure StoreMessage where
  height : Nat
  round : Int
  code : Nat
  address : Address
  payload : Nat
deriving DecidableEq, Repr

/-- Go `MsgStore`: the `firstHeight` field plus the nested message map. -/
structure MsgStore where
  firstHeight : Nat
  messages : Nat → Int → Nat → Address → List StoreMessage

/-- Go `NewMsgStore()`. -/
def NewMsgStore : MsgStore := ⟨0, fun _ _ _ _ => []⟩

/-- Go `MsgStore.Save`: records `firstHeight` on the first ever save,
then appends `m` to the list at key `(m.H(), m.Round(), m.Code,
m.Address)` (creating the intermediate maps when absent). -/
def MsgStore.Save (ms : MsgStore) (m : StoreMessage) : MsgStore where
  firstHeight := if ms.firstHeight = 0 then m.height else ms.firstHeight
  messages := fun h r c a =>
    if h = m.height ∧ r = m.round ∧ c = m.code ∧ a = m.address then
      ms.messages h r c a ++ [m]
    else
      ms.messages h r c a

/-- Go `MsgStore.FirstHeightBuffered`. -/
def MsgStore.FirstHeightBuffered (ms : MsgStore) : Nat := ms.firstHeight

/-- Go `MsgStore.DeleteMsgsBeforeHeight`: deletes every height entry
with `h <= height`; the `firstHeight` field is not touched. -/
def MsgStore.DeleteMsgsBeforeHeight (ms : MsgStore) (height : Nat) : MsgStore where
  firstHeight := ms.firstHeight
  messages := fun h r c a => if h ≤ height then [] else ms.messages h r c a

/-- A concrete message used as input for the store claims. -/
def storeMsgA : StoreMessage := ⟨5, 0, 1, 1, 42⟩

/-- A second, distinct message with the same `(height, round, code, sender)`. -/
def storeMsgB : StoreMessage := ⟨5, 0, 1, 1, 43⟩

/-! ## Message codec (`Proposal`/`Vote` RLP, file `src/unnamed/part_002`)

The generic RLP layer (`rlp.Encode`, `rlp.Stream`) belongs to a library
outside the embedded sources; it is modelled as the structural identity
on the tuple of fields written by `EncodeRLP` and read by `DecodeRLP`,
so the encoded form of a proposal or vote is the anonymous Go struct the
decoder parses into.  Field values on the wire are unsigned 64-bit,
hence `Nat` fields in the encoded structs. -/

/-- Modelled from the spec: the constant `MaxRound = 99` (spec section 3,
`MAX_ROUND = 99`) is declared in a file of the repository that is not
among the given sources. -/
def MaxRound : Nat := 99

/-- Go error string of `Proposal.EncodeRLP` for a nil block. -/
def errEncodeNilBlock : String := "encoderlp proposal with nil block"

/-- Go error string for an inconsistent is-nil flag. -/
def errBadValidRoundNil : String := "bad proposal validRound with isValidround nil"

/-- Go error string for an out-of-range round or valid round. -/
def errBadRounds : String := "bad proposal with invalid rounds"

/-- Go error string for a nil decoded block. -/
def errNilDecodedBlock : String := "bad proposal with nil decoded block"

/-- Stands for the Go value `errInvalidMessage` returned by `Vote.DecodeRLP`
(declared outside the embedded sources). -/
def errInvalidMessage : String := "invalid message"

/-- The consensus fields of a Go `Proposal` as used by its RLP methods. -/
structure Proposal where
  Round : Int
  Height : Nat
  ValidRound : Int
  ProposalBlock : Option Block
deriving DecidableEq, Repr

/-- The consensus fields of a Go `Vote` (prevote or precommit). -/
structure Vote where
  Round : Int
  Height : Nat
  ProposedBlockHash : Hash
deriving DecidableEq, Repr

/-- Wire form of a proposal: the anonymous struct parsed by
`Proposal.DecodeRLP`. -/
structure EncodedProposal where
  Round : Nat
  Height : Nat
  ValidRound : Nat
  IsValidRoundNil : Bool
  ProposalBlock : Option Block
deriving DecidableEq, Repr

/-- Wire form of a vote: the anonymous struct parsed by `Vote.DecodeRLP`. -/
structure EncodedVote where
  Round : Nat
  Height : Nat
  ProposedBlockHash : Hash
deriving DecidableEq, Repr

/-- Go `Proposal.EncodeRLP`: rejects a nil block, represents
`ValidRound = -1` by the explicit flag, and casts the rounds to
`uint64`. -/
def Proposal.EncodeRLP (p : Proposal) : Except String EncodedProposal :=
  match p.ProposalBlock with
  | none => Except.error errEncodeNilBlock
  | some b =>
    if p.ValidRound = -1 then
      Except.ok ⟨u64ofInt p.Round, p.Height, 0, true, some b⟩
    else
      Except.ok ⟨u64ofInt p.Round, p.Height, u64ofInt p.ValidRound, false, some b⟩

/-- Go `Proposal.DecodeRLP`: reconstructs `validRound` from the is-nil
flag (rejecting an inconsistent pair), then checks
`validRound <= MaxRound && proposal.Round <= MaxRound` — the valid round
compared as `int64` after the cast, the round compared as `uint64` —
then rejects a nil block. -/
def Proposal.DecodeRLP (e : EncodedProposal) : Except String Proposal :=
  match (if e.IsValidRoundNil then
           if e.ValidRound ≠ 0 then Except.error errBadValidRoundNil
           else Except.ok (-1 : Int)
         else Except.ok (i64ofNat e.ValidRound)) with
  | Except.error s => Except.error s
  | Except.ok validRound =>
    if ¬ (validRound ≤ (MaxRound : Int) ∧ e.Round ≤ MaxRound) then
      Except.error errBadRounds
    else
      match e.ProposalBlock with
      | none => Except.error errNilDecodedBlock
      | some b => Except.ok ⟨i64ofNat e.Round, e.Height, validRound, some b⟩

/-- Go `Vote.EncodeRLP`: writes `uint64(sub.Round)`, the height and the
proposed block hash. -/
def Vote.EncodeRLP (v : Vote) : EncodedVote :=
  ⟨u64ofInt v.Round, v.Height, v.ProposedBlockHash⟩

/-- Go `Vote.DecodeRLP`: casts the wire round to `int64` first and only
then compares it with `MaxRound`. -/
def Vote.DecodeRLP (e : EncodedVote) : Except String Vote :=
  if i64ofNat e.Round > (MaxRound : Int) then Except.error errInvalidMessage
  else Except.ok ⟨i64ofNat e.Round, e.Height, e.ProposedBlockHash⟩

/-! ## Accountability proof codec (`src/consensus/tendermint/accountability/types.go`)

The typed-message wrapper prefixes a consensus message with its one-byte
code, and `Proof` encodes as the struct `encodedProof` whose generic RLP
form is again modelled structurally.  The body of an inner message is
abstracted to one field, since its own codec lives outside the embedded
sources; decoding imposes the kind selected by the code byte on the
body, exactly as `stream.Decode(p)` does after the `switch`. -/

/-- Modelled from the spec: wire codes 0 = proposal, 1 = prevote,
2 = precommit, 3 = light-proposal (spec section 6; the Go constants are
declared outside the embedded sources). -/
def ProposalCode : Nat := 0

/-- Wire code of a prevote (see `ProposalCode`). -/
def PrevoteCode : Nat := 1

/-- Wire code of a precommit (see `ProposalCode`). -/
def PrecommitCode : Nat := 2

/-- Wire code of a light proposal (see `ProposalCode`). -/
def LightProposalCode : Nat := 3

/-- Stands for the Go value `errUnexpectedCode`. -/
def errUnexpectedCodeMsg : String := "unexpected message code"

/-- Stands for the Go value `rlp.ErrExpectedString`. -/
def errExpectedString : String := "rlp: expected String or Byte"

/-- A `message.Message` as the accountability codec sees it: its kind
together with an abstract body holding its remaining fields. -/
inductive AcctMessage where
  | proposal (body : Nat)
  | prevote (body : Nat)
  | precommit (body : Nat)
  | lightProposal (body : Nat)
deriving DecidableEq, Repr

/-- The code byte `t.Code()` of an accountability message. -/
def AcctMessage.code : AcctMessage → Nat
  | AcctMessage.proposal _ => ProposalCode
  | AcctMessage.prevote _ => PrevoteCode
  | AcctMessage.precommit _ => PrecommitCode
  | AcctMessage.lightProposal _ => LightProposalCode

/-- The body of an accountability message. -/
def AcctMessage.body : AcctMessage → Nat
  | AcctMessage.proposal b => b
  | AcctMessage.prevote b => b
  | AcctMessage.precommit b => b
  | AcctMessage.lightProposal b => b

/-- Kinds the evidence codec accepts when decoding (its `switch`):
prevote, precommit and light proposal, but not a full proposal. -/
def typedMessageAccepted : AcctMessage → Bool
  | AcctMessage.proposal _ => false
  | _ => true

/-- Wire form of a `typedMessage`: the byte string holding the code
followed by the message body. -/
structure EncodedTypedMessage where
  codeBytes : List Nat
  body : Nat
deriving DecidableEq, Repr

/-- Go `typedMessage.EncodeRLP`: writes `[t.Code(), t.Message]`. -/
def typedMessageEncodeRLP (m : AcctMessage) : EncodedTypedMessage :=
  ⟨[m.code], m.body⟩

/-- Go `typedMessage.DecodeRLP`: rejects an empty code string, switches
on the first code byte accepting prevote, precommit and light proposal,
and decodes the body as a message of the selected kind. -/
def typedMessageDecodeRLP (e : EncodedTypedMessage) : Except String AcctMessage :=
  match e.codeBytes with
  | [] => Except.error errExpectedString
  | b :: _ =>
    if b = PrevoteCode then Except.ok (AcctMessage.prevote e.body)
    else if b = PrecommitCode then Except.ok (AcctMessage.precommit e.body)
    else if b = LightProposalCode then Except.ok (AcctMessage.lightProposal e.body)
    else Except.error errUnexpectedCodeMsg

/-- Go `Proof`: accountability event type, rule id, offender message and
the evidence list. -/
structure AcctProof where
  type : Nat
  rule : Nat
  message : AcctMessage
  evidences : List AcctMessage
deriving DecidableEq, Repr

/-- Wire form of a proof: the struct `encodedProof`. -/
structure EncodedAcctProof where
  type : Nat
  rule : Nat
  message : EncodedTypedMessage
  evidences : List EncodedTypedMessage
deriving DecidableEq, Repr

/-- Elementwise decoding of the evidence list, failing on the first bad
element, as the generic RLP list decoder does. -/
def decodeTypedList : List EncodedTypedMessage → Except String (List AcctMessage)
  | [] => Except.ok []
  | e :: rest =>
    match typedMessageDecodeRLP e with
    | Except.error s => Except.error s
    | Except.ok m =>
      match decodeTypedList rest with
      | Except.error s => Except.error s
      | Except.ok ms => Except.ok (m :: ms)

/-- Go `Proof.EncodeRLP`: wraps the message and each evidence in order
as typed messages inside an `encodedProof`. -/
def AcctProof.EncodeRLP (p : AcctProof) : EncodedAcctProof :=
  ⟨p.type, p.rule, typedMessageEncodeRLP p.message,
   p.evidences.map typedMessageEncodeRLP⟩

/-- Go `Proof.DecodeRLP`: decodes the `encodedProof` struct and copies
type, rule, message and the evidences in order. -/
def AcctProof.DecodeRLP (e : EncodedAcctProof) : Except String AcctProof :=
  match typedMessageDecodeRLP e.message with
  | Except.error s => Except.error s
  | Except.ok m =>
    match decodeTypedList e.evidences with
    | Except.error s => Except.error s
    | Except.ok evs => Except.ok ⟨e.type, e.rule, m, evs⟩

/-! ## Core state machine (file `src/unnamed/part_001`)

`checkUponConditions`, `handleCurrentHeightMessage` and `handleMsg` are
embedded as functions from an explicit core state to a new state plus a
list of observable actions (votes sent, timers scheduled, commits).
The message cache implementation lives outside the embedded sources:
its query functions are abstract function-valued fields of the state,
and its mutators appear either with the interface behaviour the spec
gives them (`setValid`, `addValue`) or as an abstract parameter
(`addMessage`). -/

/-- Modelled from the spec: consensus message codes 0 = proposal,
1 = prevote, 2 = precommit (spec section 6; the constants `msgProposal`,
`msgPrevote`, `msgPrecommit` are declared outside the embedded
sources). -/
def msgProposal : Nat := 0

/-- Code of a prevote message (see `msgProposal`). -/
def msgPrevote : Nat := 1

/-- Code of a precommit message (see `msgProposal`). -/
def msgPrecommit : Nat := 2

/-- The Go type `Step` with its three values. -/
inductive Step where
  | propose
  | prevote
  | precommit
deriving DecidableEq, Repr

/-- Numeric value of a step (the Go constants are consecutive), used
for the `s >= prevote` comparison. -/
def Step.toNat : Step → Nat
  | Step.propose => 0
  | Step.prevote => 1
  | Step.precommit => 2

/-- Go struct `consensusMessage`. -/
structure ConsensusMessage where
  msgType : Nat
  height : Nat
  round : Int
  value : Hash
  validRound : Int
deriving DecidableEq, Repr

/-- The fields of a Go `Message` relevant here.  `payloadNoSig` stands
for the result of `m.PayloadNoSig()`. -/
structure Message where
  code : Nat
  address : Address
  committedSeal : List Nat
  signature : List Nat
  payloadNoSig : List Nat
  hash : Hash
deriving DecidableEq, Repr

/-- The message cache as the embedded core functions see it: the query
functions the core calls are abstract function-valued fields (their
implementation is outside the embedded sources), and the two concrete
maps written through `setValid`/`addValue`. -/
structure MsgCache where
  messageByHash : Hash → Option Message
  validity : Hash → Bool
  matchingProposalF : ConsensusMessage → Option ConsensusMessage
  prevoteQuorumF : Option Hash → Int → Header → Bool
  precommitQuorumF : Option Hash → Int → Header → Bool
  valueF : Hash → Option Block
  failF : Int → Header → Bool

/-- Cache lookup `c.msgCache.Message(hash)`. -/
def MsgCache.Message (mc : MsgCache) (h : Hash) : Option Message :=
  mc.messageByHash h

/-- Cache query `c.msgCache.isValid(hash)`. -/
def MsgCache.isValid (mc : MsgCache) (h : Hash) : Bool := mc.validity h

/-- Modelled from the spec: `setValid` marks the given hash valid in the
cache's validity map (spec section 4.C; the implementation is outside
the embedded sources). -/
def MsgCache.setValid (mc : MsgCache) (h : Hash) : MsgCache :=
  { mc with validity := fun x => if x = h then true else mc.validity x }

/-- Modelled from the spec: `addValue` records the proposal block under
its value hash (spec section 4.C `value_blocks`; the implementation is
outside the embedded sources). -/
def MsgCache.addValue (mc : MsgCache) (h : Hash) (b : Block) : MsgCache :=
  { mc with valueF := fun x => if x = h then some b else mc.valueF x }

/-- Cache query `c.msgCache.matchingProposal(cm)`. -/
def MsgCache.matchingProposal (mc : MsgCache) (cm : ConsensusMessage) :
    Option ConsensusMessage :=
  mc.matchingProposalF cm

/-- Cache query `c.msgCache.prevoteQuorum(value, round, header)`; the
first argument is a possibly-nil hash pointer. -/
def MsgCache.prevoteQuorum (mc : MsgCache) (v : Option Hash) (r : Int)
    (lh : Header) : Bool :=
  mc.prevoteQuorumF v r lh

/-- Cache query `c.msgCache.precommitQuorum(value, round, header)`. -/
def MsgCache.precommitQuorum (mc : MsgCache) (v : Option Hash) (r : Int)
    (lh : Header) : Bool :=
  mc.precommitQuorumF v r lh

/-- Cache query `c.msgCache.value(hash)`. -/
def MsgCache.value (mc : MsgCache) (h : Hash) : Option Block := mc.valueF h

/-- Cache query `c.msgCache.fail(round, header)`. -/
def MsgCache.fail (mc : MsgCache) (r : Int) (lh : Header) : Bool :=
  mc.failF r lh

/-- The timer objects of the core (`c.proposeTimeout` and friends). -/
inductive TimerId where
  | proposeTimer
  | prevoteTimer
  | precommitTimer
deriving DecidableEq, Repr

/-- The timeout callback methods a timer can be armed with. -/
inductive TimeoutCallback where
  | onTimeoutPropose
  | onTimeoutPrevote
  | onTimeoutPrecommit
deriving DecidableEq, Repr

/-- Observable effects of the embedded core functions. -/
inductive Action where
  | sendPrevote (isNil : Bool)
  | sendPrecommit (isNil : Bool)
  | scheduleTimeout (timer : TimerId) (round : Int) (height : Nat)
      (callback : TimeoutCallback)
  | commit (block : Block) (round : Int)
  | verifyProposal (block : Block)
  | startRound (round : Int)
deriving DecidableEq, Repr

/-- Go `voteForNil bool = true`. -/
def voteForNil : Bool := true

/-- Go `voteForValue bool = false`. -/
def voteForValue : Bool := false

/-- A Go run-time panic (nil-pointer dereference). -/
inductive GoPanic where
  | nilDeref
deriving DecidableEq, Repr

/-- Computations that can panic. -/
abbrev CoreM := Except GoPanic

/-- The Go error values surfaced by `handleMsg` and
`handleCurrentHeightMessage`. -/
inductive GoError where
  | decodeError (s : String)
  | failedDecodeProposal
  | failedDecodePrevote
  | failedDecodePrecommit
  | invalidCommittedSeal (s : String)
  | unrecognisedCode (code : Nat)
  | addMessageError (s : String)
  | notCommitteeMember
  | invalidSignature (s : String)
  | addressMismatch
  | notFromProposer
deriving DecidableEq, Repr

/-- The mutable core state of one node, together with the abstract
committee queries the embedded functions consult
(`lastHeader.CommitteeMember` and `isProposerMsg`, implemented outside
the embedded sources). -/
structure CoreState where
  height : Nat
  round : Int
  step : Step
  lockedRound : Int
  lockedValue : Option Block
  validRound : Int
  validValue : Option Block
  line34Executed : Bool
  line36Executed : Bool
  line47Executed : Bool
  lastHeader : Header
  msgCache : MsgCache
  committeeMember : Address → Bool
  isProposerMsgF : Int → Address → Bool

/-- The external collaborators of `handleMsg` whose implementations are
outside the embedded sources: hashing, the message codecs, the seal and
signature checks, and the cache mutator `addMessage`. -/
structure GoEnv where
  keccak256 : List Nat → Hash
  decodeMessage : List Nat → Except String Message
  decodeProposal : Message → Except String Proposal
  decodeVote : Message → Except String Vote
  verifyCommittedSeal : Address → List Nat → Hash → Int → Nat → Except String Unit
  checkValidatorSignature : Header → List Nat → List Nat → Except String Address
  addMessage : MsgCache → Message → ConsensusMessage → Except String MsgCache

/-- Line 22 of `checkUponConditions`.  The Go condition
`isValid(v) && lockedRound == -1 || lockedValue.Hash() == v` parses as
`(isValid(v) && lockedRound == -1) || lockedValue.Hash() == v`, and the
second disjunct dereferences `lockedValue`. -/
def line22Go (cm : ConsensusMessage) (r : Int) (x : CoreState × Step) :
    CoreM ((CoreState × Step) × List Action) :=
  if cm.msgType ∈ [msgProposal] ∧ cm.round = r ∧ cm.validRound = -1 ∧
      x.1.step = Step.propose then
    if x.1.msgCache.isValid cm.value = true ∧ x.1.lockedRound = -1 then
      Except.ok (x, [Action.sendPrevote voteForValue])
    else
      match x.1.lockedValue with
      | none => Except.error GoPanic.nilDeref
      | some lv =>
        if lv.hash = cm.value then
          Except.ok (x, [Action.sendPrevote voteForValue])
        else
          Except.ok (x, [Action.sendPrevote voteForNil])
  else Except.ok (x, [])

/-- Line 28 of `checkUponConditions`: an old proposal with a prevote
quorum at its valid round while in the propose step.  The inner lock
check is `isValid(v) && (lockedRound <= vr || lockedValue.Hash() == v)`,
whose last disjunct dereferences `lockedValue`. -/
def line28Go (cm : ConsensusMessage) (r : Int) (lh : Header) :
    Option ConsensusMessage → CoreState × Step →
      CoreM ((CoreState × Step) × List Action)
  | none, x => Except.ok (x, [])
  | some pp, x =>
    if cm.msgType ∈ [msgProposal, msgPrevote] ∧ pp.round = r ∧
        x.1.msgCache.prevoteQuorum (some pp.value) pp.validRound lh = true ∧
        x.2 = Step.propose ∧ (0 ≤ pp.validRound ∧ pp.validRound < r) then
      if x.1.msgCache.isValid pp.value = true then
        if x.1.lockedRound ≤ pp.validRound then
          Except.ok (x, [Action.sendPrevote voteForValue])
        else
          match x.1.lockedValue with
          | none => Except.error GoPanic.nilDeref
          | some lv =>
            if lv.hash = pp.value then
              Except.ok (x, [Action.sendPrevote voteForValue])
            else
              Except.ok (x, [Action.sendPrevote voteForNil])
      else Except.ok (x, [Action.sendPrevote voteForNil])
    else Except.ok (x, [])

/-- Line 34 of `checkUponConditions`: on any prevote quorum at the
current round in the prevote step, with the latch unset, the source
schedules the prevote timer — passing `c.onTimeoutPrecommit` as the
callback. -/
def line34Go (cm : ConsensusMessage) (r : Int) (h : Nat) (lh : Header)
    (x : CoreState × Step) : CoreM ((CoreState × Step) × List Action) :=
  if cm.msgType ∈ [msgPrevote] ∧ cm.round = r ∧
      x.1.msgCache.prevoteQuorum none r lh = true ∧ x.2 = Step.prevote ∧
      x.1.line34Executed = false then
    Except.ok (x,
      [Action.scheduleTimeout TimerId.prevoteTimer r h
        TimeoutCallback.onTimeoutPrecommit])
  else Except.ok (x, [])

/-- Line 36 of `checkUponConditions`: on a prevote quorum for a valid
proposal value at the current round with the latch unset, lock and
precommit when still in the prevote step, and always update the valid
value and round. -/
def line36Go (cm : ConsensusMessage) (r : Int) (lh : Header) :
    Option ConsensusMessage → CoreState × Step →
      CoreM ((CoreState × Step) × List Action)
  | none, x => Except.ok (x, [])
  | some pp, x =>
    if cm.msgType ∈ [msgProposal, msgPrevote] ∧ pp.round = r ∧
        x.1.msgCache.prevoteQuorum (some pp.value) r lh = true ∧
        x.1.msgCache.isValid pp.value = true ∧
        Step.prevote.toNat ≤ x.2.toNat ∧ x.1.line36Executed = false then
      if x.2 = Step.prevote then
        Except.ok (({ x.1 with
            lockedValue := x.1.msgCache.value pp.value,
            lockedRound := r,
            step := Step.precommit,
            validValue := x.1.msgCache.value pp.value,
            validRound := r }, Step.precommit),
          [Action.sendPrecommit voteForValue])
      else
        Except.ok (({ x.1 with
            validValue := x.1.msgCache.value pp.value,
            validRound := r }, x.2), [])
    else Except.ok (x, [])

/-- Line 44 of `checkUponConditions`: on a prevote quorum for NIL at the
current round in the prevote step, precommit and move to the precommit
step.  The source passes `voteForValue` to `sendPrecommit` here. -/
def line44Go (cm : ConsensusMessage) (r : Int) (lh : Header)
    (x : CoreState × Step) : CoreM ((CoreState × Step) × List Action) :=
  if cm.msgType ∈ [msgPrevote] ∧ cm.round = r ∧
      x.1.msgCache.prevoteQuorum (some nilValue) r lh = true ∧
      x.2 = Step.prevote then
    Except.ok (({ x.1 with step := Step.precommit }, Step.precommit),
      [Action.sendPrecommit voteForValue])
  else Except.ok (x, [])

/-- Line 47 of `checkUponConditions`: on any precommit quorum at the
current round with the latch unset, schedule the precommit timer with
`c.onTimeoutPrecommit`. -/
def line47Go (cm : ConsensusMessage) (r : Int) (h : Nat) (lh : Header)
    (x : CoreState × Step) : CoreM ((CoreState × Step) × List Action) :=
  if cm.msgType ∈ [msgPrecommit] ∧ cm.round = r ∧
      x.1.msgCache.precommitQuorum none r lh = true ∧
      x.1.line47Executed = false then
    Except.ok (x,
      [Action.scheduleTimeout TimerId.precommitTimer r h
        TimeoutCallback.onTimeoutPrecommit])
  else Except.ok (x, [])

/-- Line 49 of `checkUponConditions`: on a precommit quorum for the
value of a matching proposal at the proposal's round (any round), if the
value is valid, commit the block, advance the height and reset the
locked and valid state.  The source does not start a new round here (its
round-restart is an open TODO); committing a value whose block is not in
the cache dereferences a nil block pointer. -/
def line49Go (cm : ConsensusMessage) (lh : Header) :
    Option ConsensusMessage → CoreState × Step →
      CoreM ((CoreState × Step) × List Action)
  | none, x => Except.ok (x, [])
  | some pp, x =>
    if cm.msgType ∈ [msgProposal, msgPrecommit] ∧
        x.1.msgCache.precommitQuorum (some pp.value) pp.round lh = true then
      if x.1.msgCache.isValid pp.value = true then
        match x.1.msgCache.value pp.value with
        | none => Except.error GoPanic.nilDeref
        | some b =>
          Except.ok (({ x.1 with
              height := b.number + 1,
              lockedRound := -1, lockedValue := none,
              validRound := -1, validValue := none }, x.2),
            [Action.commit b pp.round])
      else Except.ok (x, [])
    else Except.ok (x, [])

/-- Line 55 of `checkUponConditions`: the body of the Go `if` consists
only of the commented-out `StartRound(cm.round)`, so nothing happens in
either case. -/
def line55Go (cm : ConsensusMessage) (r : Int) (lh : Header)
    (x : CoreState × Step) : CoreM ((CoreState × Step) × List Action) :=
  if cm.round > r ∧ x.1.msgCache.fail cm.round lh = true then
    Except.ok (x, [])
  else Except.ok (x, [])

/-- Go `core.checkUponConditions`: reads the round, height, header and
matching proposal once, then runs the eight upon-rule blocks in source
order, threading the state and the local step variable and accumulating
the emitted actions in order. -/
def checkUponConditions (c0 : CoreState) (cm : ConsensusMessage) :
    CoreM (CoreState × List Action) := do
  let r := c0.round
  let h := c0.height
  let lh := c0.lastHeader
  let p := c0.msgCache.matchingProposal cm
  let (x1, a1) ← line22Go cm r (c0, c0.step)
  let (x2, a2) ← line28Go cm r lh p x1
  let (x3, a3) ← line34Go cm r h lh x2
  let (x4, a4) ← line36Go cm r lh p x3
  let (x5, a5) ← line44Go cm r lh x4
  let (x6, a6) ← line47Go cm r h lh x5
  let (x7, a7) ← line49Go cm lh p x6
  let (x8, a8) ← line55Go cm r lh x7
  Except.ok (x8.1, a1 ++ a2 ++ a3 ++ a4 ++ a5 ++ a6 ++ a7 ++ a8)

/-- Go `core.handleCurrentHeightMessage`: committee membership check,
signature recovery and comparison, then the code switch.  In the
proposal case the source returns `errNotFromProposer` for non-proposers;
the block-verification statements stand after that `return` and are
unreachable, so on the proposal path nothing is verified and no
validity flag is set.  All other codes mark the message hash valid.
Finally the upon conditions run. -/
def handleCurrentHeightMessage (env : GoEnv) (c : CoreState) (m : Message)
    (cm : ConsensusMessage) : CoreM (Except GoError (CoreState × List Action)) :=
  if ¬ c.committeeMember m.address = true then
    Except.ok (Except.error GoError.notCommitteeMember)
  else
    match env.checkValidatorSignature c.lastHeader m.payloadNoSig m.signature with
    | Except.error s => Except.ok (Except.error (GoError.invalidSignature s))
    | Except.ok address =>
      if address ≠ m.address then
        Except.ok (Except.error GoError.addressMismatch)
      else
        if m.code = msgProposal then
          if ¬ c.isProposerMsgF cm.round m.address = true then
            Except.ok (Except.error GoError.notFromProposer)
          else
            match checkUponConditions c cm with
            | Except.error e => Except.error e
            | Except.ok (c2, acts) => Except.ok (Except.ok (c2, acts))
        else
          match checkUponConditions { c with msgCache := c.msgCache.setValid m.hash } cm with
          | Except.error e => Except.error e
          | Except.ok (c2, acts) => Except.ok (Except.ok (c2, acts))

/-- The tail of `handleMsg` after the code switch: messages for another
height are kept in the cache but not dispatched; current-height messages
go to `handleCurrentHeightMessage`. -/
def handleMsgTail (env : GoEnv) (c : CoreState) (m : Message)
    (cm : ConsensusMessage) : CoreM (Except GoError (CoreState × List Action)) :=
  if cm.height ≠ c.height then Except.ok (Except.ok (c, []))
  else handleCurrentHeightMessage env c m cm

/-- Go `core.handleMsg`: hashes the payload and returns nil immediately
when the hash is already in the message cache; otherwise decodes the
message, builds the `consensusMessage` for its code (the committed seal
of a precommit is verified first), stores it in the cache and continues
with `handleMsgTail`. -/
def handleMsg (env : GoEnv) (c : CoreState) (payload : List Nat) :
    CoreM (Except GoError (CoreState × List Action)) :=
  let hash := env.keccak256 payload
  if (c.msgCache.Message hash).isSome = true then
    Except.ok (Except.ok (c, []))
  else
    match env.decodeMessage payload with
    | Except.error s => Except.ok (Except.error (GoError.decodeError s))
    | Except.ok m0 =>
      let m := { m0 with hash := hash }
      if m.code = msgProposal then
        match env.decodeProposal m with
        | Except.error _ => Except.ok (Except.error GoError.failedDecodeProposal)
        | Except.ok proposal =>
          match proposal.ProposalBlock with
          | none => Except.error GoPanic.nilDeref
          | some pb =>
            let conMsg : ConsensusMessage :=
              ⟨m.code, proposal.Height, proposal.Round, pb.hash, proposal.ValidRound⟩
            match env.addMessage c.msgCache m conMsg with
            | Except.error s => Except.ok (Except.error (GoError.addMessageError s))
            | Except.ok mc2 =>
              handleMsgTail env
                { c with msgCache := mc2.addValue pb.hash pb } m conMsg
      else if m.code = msgPrevote then
        match env.decodeVote m with
        | Except.error _ => Except.ok (Except.error GoError.failedDecodePrevote)
        | Except.ok preVote =>
          let conMsg : ConsensusMessage :=
            ⟨m.code, preVote.Height, preVote.Round, preVote.ProposedBlockHash, 0⟩
          match env.addMessage c.msgCache m conMsg with
          | Except.error s => Except.ok (Except.error (GoError.addMessageError s))
          | Except.ok mc2 =>
            handleMsgTail env { c with msgCache := mc2 } m conMsg
      else if m.code = msgPrecommit then
        match env.decodeVote m with
        | Except.error _ => Except.ok (Except.error GoError.failedDecodePrecommit)
        | Except.ok preCommit =>
          match env.verifyCommittedSeal m.address m.committedSeal
              preCommit.ProposedBlockHash preCommit.Round preCommit.Height with
          | Except.error s => Except.ok (Except.error (GoError.invalidCommittedSeal s))
          | Except.ok _ =>
            let conMsg : ConsensusMessage :=
              ⟨m.code, preCommit.Height, preCommit.Round, preCommit.ProposedBlockHash, 0⟩
            match env.addMessage c.msgCache m conMsg with
            | Except.error s => Except.ok (Except.error (GoError.addMessageError s))
            | Except.ok mc2 =>
              handleMsgTail env { c with msgCache := mc2 } m conMsg
      else Except.ok (Except.error (GoError.unrecognisedCode m.code))

/-- A timeout event as posted on the event channel. -/
structure TimeoutEvent where
  round : Int
  height : Nat
  step : Nat
deriving DecidableEq, Repr

/-- Modelled from the spec: a timeout callback posts a
`TimeoutEvent{step, H, R}` whose step names the timeout kind the
callback belongs to (spec sections 4.E and 6; the callback methods are
outside the embedded sources). -/
def TimeoutCallback.fire : TimeoutCallback → Int → Nat → TimeoutEvent
  | TimeoutCallback.onTimeoutPropose, r, h => ⟨r, h, msgProposal⟩
  | TimeoutCallback.onTimeoutPrevote, r, h => ⟨r, h, msgPrevote⟩
  | TimeoutCallback.onTimeoutPrecommit, r, h => ⟨r, h, msgPrecommit⟩

/-- Modelled from the spec: the propose timeout handler prevotes NIL and
moves to the prevote step when the event still matches the current
height and round, and ignores the event otherwise (spec section 4.F;
the handler is outside the embedded sources). -/
def handleTimeoutPropose (c : CoreState) (e : TimeoutEvent) :
    CoreState × List Action :=
  if c.height = e.height ∧ c.round = e.round then
    ({ c with step := Step.prevote }, [Action.sendPrevote voteForNil])
  else (c, [])

/-- Modelled from the spec: the prevote timeout handler precommits NIL
and moves to the precommit step when the event still matches, and
ignores it otherwise (spec section 4.F). -/
def handleTimeoutPrevote (c : CoreState) (e : TimeoutEvent) :
    CoreState × List Action :=
  if c.height = e.height ∧ c.round = e.round then
    ({ c with step := Step.precommit }, [Action.sendPrecommit voteForNil])
  else (c, [])

/-- Modelled from the spec: the precommit timeout handler starts round
`r + 1` when the event still matches, and ignores it otherwise (spec
section 4.F). -/
def handleTimeoutPrecommit (c : CoreState) (e : TimeoutEvent) :
    CoreState × List Action :=
  if c.height = e.height ∧ c.round = e.round then
    (c, [Action.startRound (e.round + 1)])
  else (c, [])

/-- The timeout dispatch of `core.mainEventLoop`: a `TimeoutEvent` is
routed by its step code to the matching timeout handler. -/
def dispatchTimeoutEvent (c : CoreState) (e : TimeoutEvent) :
    CoreState × List Action :=
  if e.step = msgProposal then handleTimeoutPropose c e
  else if e.step = msgPrevote then handleTimeoutPrevote c e
  else if e.step = msgPrecommit then handleTimeoutPrecommit c e
  else (c, [])

/-- The prevote decision of line 22 as the specification states it:
prevote for the value exactly when the value is valid and the node is
unlocked or locked on that value. -/
def line22SpecCondition (valid : Bool) (lockedRound : Int)
    (lockedValue : Option Block) (value : Hash) : Bool :=
  valid && (lockedRound == -1 ||
    (match lockedValue with
     | some b => b.hash == value
     | none => false))

/-- An action other than verification, commitment or a round start:
everything the upon-rule blocks may emit besides the line-49 commit. -/
def Action.benign : Action → Bool
  | Action.sendPrevote _ => true
  | Action.sendPrecommit _ => true
  | Action.scheduleTimeout _ _ _ _ => true
  | Action.commit _ _ => false
  | Action.verifyProposal _ => false
  | Action.startRound _ => false

/-- An empty message cache with every abstract query returning nothing. -/
def emptyCache : MsgCache where
  messageByHash := fun _ => none
  validity := fun _ => false
  matchingProposalF := fun _ => none
  prevoteQuorumF := fun _ _ _ => false
  precommitQuorumF := fun _ _ _ => false
  valueF := fun _ => none
  failF := fun _ _ => false

/-- A fresh core state at height 10, round 0, propose step. -/
def baseState : CoreState where
  height := 10
  round := 0
  step := Step.propose
  lockedRound := -1
  lockedValue := none
  validRound := -1
  validValue := none
  line34Executed := false
  line36Executed := false
  line47Executed := false
  lastHeader := 0
  msgCache := emptyCache
  committeeMember := fun _ => true
  isProposerMsgF := fun _ _ => true

/-- The candidate block used by the core-state-machine examples: number
10, value hash 77. -/
def blockB : Block := ⟨10, 77⟩

/-- A proposal for the current height and round with valid round `-1`,
proposing the value `77`. -/
def cmC1 : ConsensusMessage := ⟨msgProposal, 10, 0, 77, -1⟩

/-- A state in the propose step, locked in round 0 on the block whose
hash is exactly the proposed value `77`, with that value not marked
valid in the cache. -/
def stateC1 : CoreState :=
  { baseState with
    lockedRound := 0
    lockedValue := some blockB
    msgCache :=
      { emptyCache with
        matchingProposalF := fun cm => if cm = cmC1 then some cmC1 else none } }

/-- The cached proposal for value `77` at round 0 of height 10. -/
def proposalC2 : ConsensusMessage := ⟨msgProposal, 10, 0, 77, -1⟩

/-- A precommit for value `77` at round 0 of height 10. -/
def cmC2 : ConsensusMessage := ⟨msgPrecommit, 10, 0, 77, 0⟩

/-- A state in which value `77` is valid, its block is cached, and the
precommits for it at round 0 reach a quorum. -/
def stateC2 : CoreState :=
  { baseState with
    step := Step.precommit
    msgCache :=
      { emptyCache with
        matchingProposalF := fun cm => if cm = cmC2 then some proposalC2 else none
        precommitQuorumF := fun v r _ => v == some 77 && r == 0
        validity := fun h => h == 77
        valueF := fun h => if h = 77 then some blockB else none } }

/-- A prevote at round 2 of height 10. -/
def cmC3 : ConsensusMessage := ⟨msgPrevote, 10, 2, 77, 0⟩

/-- A state at round 2 in the prevote step in which the prevotes at
round 2 (regardless of value) reach a quorum. -/
def stateC3 : CoreState :=
  { baseState with
    round := 2
    step := Step.prevote
    msgCache :=
      { emptyCache with
        prevoteQuorumF := fun v r _ => v == none && r == 2 } }

/-- Placeholder error string for stubbed collaborator functions. -/
def errStub : String := "unused"

/-- A concrete message value for the example environments. -/
def mStub : Message := ⟨msgPrevote, 1, [], [], [], 0⟩

/-- A concrete collaborator environment: hashing is the payload length,
the codecs reject everything, signatures recover address 1, seals
verify, and `addMessage` leaves the cache unchanged. -/
def envStub : GoEnv where
  keccak256 := fun l => l.length
  decodeMessage := fun _ => Except.error errStub
  decodeProposal := fun _ => Except.error errStub
  decodeVote := fun _ => Except.error errStub
  verifyCommittedSeal := fun _ _ _ _ _ => Except.ok ()
  checkValidatorSignature := fun _ _ _ => Except.ok 1
  addMessage := fun mc _ _ => Except.ok mc

/-- A proposal message from address 1 as `handleCurrentHeightMessage`
receives it. -/
def mC4 : Message := ⟨msgProposal, 1, [], [], [], 5⟩

/-- The consensus view of `mC4`: a proposal for round 0 of height 10
with valid round 0. -/
def cmC4 : ConsensusMessage := ⟨msgProposal, 10, 0, 77, 0⟩

/-- A state whose message cache already contains a message under hash 3
(the length of the example payload). -/
def stateC10 : CoreState :=
  { baseState with
    msgCache :=
      { emptyCache with
        messageByHash := fun h => if h = 3 then some mStub else none } }

/-- A proposal with round 100 (above `MaxRound`), valid round `-1` and a
non-nil block. -/
def propRound100 : Proposal := ⟨100, 1, -1, some blockB⟩

/-- A well-formed first proposal (valid round `-1`) within the round
bound. -/
def propW : Proposal := ⟨3, 7, -1, some blockB⟩

/-- A well-formed re-proposal with valid round 2. -/
def propW2 : Proposal := ⟨3, 7, 2, some blockB⟩

/-- A well-formed vote within the round bound. -/
def voteW : Vote := ⟨5, 7, 77⟩

/-- A wire vote whose round field is `2^63`: above `MaxRound` on the
wire, negative after the `int64` cast. -/
def voteWrap : EncodedVote := ⟨2 ^ 63, 1, 0⟩

/-- A wire proposal with the is-nil flag set but a non-zero valid
round. -/
def encBadNil : EncodedProposal := ⟨0, 1, 5, true, some blockB⟩

/-- A wire proposal whose round exceeds `MaxRound`. -/
def encBigRound : EncodedProposal := ⟨100, 1, 0, true, some blockB⟩

/-- A wire proposal whose valid round exceeds `MaxRound` but stays below
`2^63`. -/
def encBigVr : EncodedProposal := ⟨0, 1, 100, false, some blockB⟩

/-- A wire proposal carrying a nil block. -/
def encNilBlock : EncodedProposal := ⟨0, 1, 0, true, none⟩

/-- A concrete accountability proof whose message and evidences are of
the kinds the evidence codec accepts. -/
def proofW : AcctProof :=
  ⟨1, 2, AcctMessage.prevote 5, [AcctMessage.precommit 6, AcctMessage.lightProposal 7]⟩

/-! ## Helper lemmas -/

theorem u64ofInt_of_nonneg {x : Int} (h0 : 0 ≤ x) (h1 : x < 2 ^ 64) :
    u64ofInt x = x.toNat := by
  unfold u64ofInt
  rw [Int.emod_eq_of_lt h0 h1]

theorem i64ofNat_small {u : Nat} (h : u < 2 ^ 63) : i64ofNat u = (u : Int) := by
  unfold i64ofNat
  have h64 : u < 2 ^ 64 := lt_trans h (by norm_num)
  rw [Nat.mod_eq_of_lt h64]
  simp only [if_pos (show u < 2 ^ 63 from h)]

theorem i64ofNat_large {u : Nat} (h0 : 2 ^ 63 ≤ u) (h1 : u < 2 ^ 64) :
    i64ofNat u = (u : Int) - 2 ^ 64 := by
  unfold i64ofNat
  rw [Nat.mod_eq_of_lt h1]
  simp only [if_neg (by omega : ¬ u < 2 ^ 63)]

theorem i64_u64_id {x : Int} (h0 : 0 ≤ x) (h1 : x < 2 ^ 63) :
    i64ofNat (u64ofInt x) = x := by
  rw [u64ofInt_of_nonneg h0 (lt_trans h1 (by norm_num))]
  rw [i64ofNat_small (by omega)]
  omega

/-! ## Theorems about the Message Store (claims C8 and C9) -/

/-- C8 counterexample: `Save` is not idempotent for identical payloads —
saving the same message twice leaves two entries at its key, so the
store differs from the store after a single save. -/
theorem save_not_idempotent_cex :
    ((NewMsgStore.Save storeMsgA).Save storeMsgA).messages 5 0 1 1
        = [storeMsgA, storeMsgA]
    ∧ (NewMsgStore.Save storeMsgA).messages 5 0 1 1 = [storeMsgA]
    ∧ ((NewMsgStore.Save storeMsgA).Save storeMsgA).messages 5 0 1 1
        ≠ (NewMsgStore.Save storeMsgA).messages 5 0 1 1 := by
  refine ⟨?_, ?_, ?_⟩ <;> decide

/-- C8 (amended): `Save` appends unconditionally.  A second save with
the same `(height, round, kind, sender)` key — whether the identical
message or a distinct one — appends a second entry after the first. -/
theorem save_appends (ms : MsgStore) (m m2 : StoreMessage)
    (hh : m2.height = m.height) (hr : m2.round = m.round)
    (hc : m2.code = m.code) (ha : m2.address = m.address) :
    ((ms.Save m).Save m2).messages m.height m.round m.code m.address
      = ms.messages m.height m.round m.code m.address ++ [m, m2] := by
  simp [MsgStore.Save, hh, hr, hc, ha]

/-- Witness for `save_appends` at the two concrete store messages. -/
theorem save_appends_witness :
    ((NewMsgStore.Save storeMsgA).Save storeMsgB).messages 5 0 1 1
      = NewMsgStore.messages 5 0 1 1 ++ [storeMsgA, storeMsgB] :=
  save_appends NewMsgStore storeMsgA storeMsgB rfl rfl rfl rfl

/-- C9 counterexample: after saving a message at height 5 and deleting
everything up to height 10, `FirstHeightBuffered` still returns 5,
which is not greater than 10, and is not a retained height either. -/
theorem delete_before_first_height_cex :
    ((NewMsgStore.Save storeMsgA).DeleteMsgsBeforeHeight 10).FirstHeightBuffered = 5
    ∧ ¬ ((NewMsgStore.Save storeMsgA).DeleteMsgsBeforeHeight 10).FirstHeightBuffered > 10
    ∧ ((NewMsgStore.Save storeMsgA).DeleteMsgsBeforeHeight 10).messages 5 0 1 1 = [] := by
  refine ⟨?_, ?_, ?_⟩ <;> decide

/-- C9 (amended): `DeleteMsgsBeforeHeight h` removes every entry at
heights `<= h`, but `FirstHeightBuffered` is unchanged by it — the
store keeps returning the height of the first message saved since the
node started, not the lowest height still retained. -/
theorem delete_before_behaviour (ms : MsgStore) (h h2 : Nat) (r : Int)
    (c a : Nat) (hle : h2 ≤ h) :
    (ms.DeleteMsgsBeforeHeight h).FirstHeightBuffered = ms.FirstHeightBuffered
    ∧ (ms.DeleteMsgsBeforeHeight h).messages h2 r c a = [] := by
  refine ⟨rfl, ?_⟩
  simp [MsgStore.DeleteMsgsBeforeHeight, hle]

/-- Witness for `delete_before_behaviour` on a store holding a message
at height 5. -/
theorem delete_before_behaviour_witness :
    ((NewMsgStore.Save storeMsgA).DeleteMsgsBeforeHeight 10).FirstHeightBuffered
        = (NewMsgStore.Save storeMsgA).FirstHeightBuffered
    ∧ ((NewMsgStore.Save storeMsgA).DeleteMsgsBeforeHeight 10).messages 5 0 1 1 = [] :=
  delete_before_behaviour (NewMsgStore.Save storeMsgA) 10 5 0 1 1 (by decide)

/-! ## Theorems about the message codec (claims C5 and C6) -/

/-- C5 counterexample: the round-trip law fails as stated, because the
claim leaves the round unconstrained: a proposal with round 100, valid
round `-1` and a non-nil block encodes fine but its decoding is
rejected by the round bound. -/
theorem roundtrip_fails_round100_cex :
    propRound100.ValidRound = -1
    ∧ propRound100.ProposalBlock ≠ none
    ∧ (Proposal.EncodeRLP propRound100).bind Proposal.DecodeRLP
        = Except.error errBadRounds := by
  refine ⟨rfl, ?_, ?_⟩ <;> decide

/-- C5 (amended): for every proposal whose round lies in
`[0, MaxRound]`, whose valid round is `-1` or in `[0, MaxRound]`, and
whose block is non-nil, decoding the encoding returns the proposal; and
for every vote whose round lies in `[0, MaxRound]`, decoding the
encoding returns the vote. -/
theorem encode_decode_id (p : Proposal) (v : Vote)
    (hr0 : 0 ≤ p.Round) (hr1 : p.Round ≤ (MaxRound : Int))
    (hvr : p.ValidRound = -1 ∨ (0 ≤ p.ValidRound ∧ p.ValidRound ≤ (MaxRound : Int)))
    (hb : p.ProposalBlock ≠ none)
    (hv0 : 0 ≤ v.Round) (hv1 : v.Round ≤ (MaxRound : Int)) :
    (Proposal.EncodeRLP p).bind Proposal.DecodeRLP = Except.ok p
    ∧ Vote.DecodeRLP (Vote.EncodeRLP v) = Except.ok v := by
  constructor
  · obtain ⟨R, H, VR, PB⟩ := p
    simp only [MaxRound] at hr1 hvr
    match PB, hb with
    | some b, _ =>
      have hr0' : (0 : Int) ≤ R := hr0
      have hA : (-1 : Int) ≤ (MaxRound : Int) := by
        simp only [MaxRound]; omega
      have hRu : u64ofInt R = R.toNat := u64ofInt_of_nonneg hr0' (by omega)
      have hRb : u64ofInt R ≤ MaxRound := by
        rw [hRu]; simp only [MaxRound]; omega
      have hRrt : i64ofNat (u64ofInt R) = R := i64_u64_id hr0' (by omega)
      rcases hvr with hm1 | ⟨hvr0, hvr1⟩
      · subst hm1
        show (if ¬ ((-1 : Int) ≤ (MaxRound : Int) ∧ u64ofInt R ≤ MaxRound) then
                (Except.error errBadRounds : Except String Proposal)
              else
                Except.ok (⟨i64ofNat (u64ofInt R), H, -1, some b⟩ : Proposal))
            = Except.ok (⟨R, H, -1, some b⟩ : Proposal)
        rw [if_neg (not_not_intro ⟨hA, hRb⟩), hRrt]
      · have hne : VR ≠ -1 := by omega
        have hVRrt : i64ofNat (u64ofInt VR) = VR := i64_u64_id hvr0 (by omega)
        have hVRb : i64ofNat (u64ofInt VR) ≤ (MaxRound : Int) := by
          rw [hVRrt]; simp only [MaxRound]; omega
        have henc : Proposal.EncodeRLP ⟨R, H, VR, some b⟩
            = Except.ok ⟨u64ofInt R, H, u64ofInt VR, false, some b⟩ := by
          unfold Proposal.EncodeRLP
          simp only [if_neg hne]
        rw [henc]
        show (if ¬ (i64ofNat (u64ofInt VR) ≤ (MaxRound : Int) ∧ u64ofInt R ≤ MaxRound) then
                (Except.error errBadRounds : Except String Proposal)
              else
                Except.ok (⟨i64ofNat (u64ofInt R), H, i64ofNat (u64ofInt VR), some b⟩ : Proposal))
            = Except.ok (⟨R, H, VR, some b⟩ : Proposal)
        rw [if_neg (not_not_intro ⟨hVRb, hRb⟩), hRrt, hVRrt]
  · obtain ⟨R, H, PH⟩ := v
    simp only [MaxRound] at hv1
    have hrt : i64ofNat (u64ofInt R) = R := i64_u64_id hv0 (by omega)
    simp only [Vote.EncodeRLP, Vote.DecodeRLP, hrt]
    rw [if_neg (by simp only [MaxRound]; omega)]

/-- Witness for `encode_decode_id` at a concrete proposal and vote. -/
theorem encode_decode_id_witness :
    (Proposal.EncodeRLP propW).bind Proposal.DecodeRLP = Except.ok propW
    ∧ Vote.DecodeRLP (Vote.EncodeRLP voteW) = Except.ok voteW :=
  encode_decode_id propW voteW (by decide) (by decide) (Or.inl rfl)
    (by decide) (by decide) (by decide)

/-- C6 counterexample: vote decoding does not fail for every wire round
above `MaxRound` — the decoder casts to `int64` before comparing, so
the wire round `2^63` becomes negative and is accepted. -/
theorem vote_decode_wrap_cex :
    MaxRound < voteWrap.Round
    ∧ Vote.DecodeRLP voteWrap = Except.ok ⟨-(2 ^ 63 : Int), 1, 0⟩ := by
  refine ⟨?_, ?_⟩ <;> decide

/-- C6 (amended): proposal decoding fails when the is-nil flag is set
with a non-zero valid round, for every wire round above `MaxRound`, for
every wire valid round in `(MaxRound, 2^63)`, and for every nil block;
vote decoding fails for every wire round in `(MaxRound, 2^63)`; but wire
rounds in `[2^63, 2^64)` are cast to negative `int64` values and
accepted by the vote decoder. -/
theorem decode_rejections :
    (∀ e : EncodedProposal, e.IsValidRoundNil = true → e.ValidRound ≠ 0 →
        Proposal.DecodeRLP e = Except.error errBadValidRoundNil)
    ∧ (∀ e : EncodedProposal, MaxRound < e.Round →
        ∀ p : Proposal, Proposal.DecodeRLP e ≠ Except.ok p)
    ∧ (∀ e : EncodedProposal, e.IsValidRoundNil = false →
        MaxRound < e.ValidRound → e.ValidRound < 2 ^ 63 →
        Proposal.DecodeRLP e = Except.error errBadRounds)
    ∧ (∀ e : EncodedProposal, e.ProposalBlock = none →
        ∀ p : Proposal, Proposal.DecodeRLP e ≠ Except.ok p)
    ∧ (∀ e : EncodedVote, MaxRound < e.Round → e.Round < 2 ^ 63 →
        Vote.DecodeRLP e = Except.error errInvalidMessage)
    ∧ (∀ e : EncodedVote, 2 ^ 63 ≤ e.Round → e.Round < 2 ^ 64 →
        Vote.DecodeRLP e = Except.ok ⟨(e.Round : Int) - 2 ^ 64, e.Height, e.ProposedBlockHash⟩) := by
  refine ⟨?_, ?_, ?_, ?_, ?_, ?_⟩
  · intro e hnil hvr
    simp [Proposal.DecodeRLP, hnil, hvr]
  · intro e hround p
    unfold Proposal.DecodeRLP
    split
    · simp
    · rw [if_pos]
      · simp
      · simp only [MaxRound] at hround
        simp only [not_and]
        intro _
        simp only [MaxRound]
        omega
  · intro e hnil hvr hsmall
    have hcast : i64ofNat e.ValidRound = (e.ValidRound : Int) :=
      i64ofNat_small hsmall
    simp only [MaxRound] at hvr
    simp only [Proposal.DecodeRLP, hnil, Bool.false_eq_true, if_false, hcast]
    rw [if_pos]
    simp only [MaxRound, not_and]
    intro hle
    omega
  · intro e hblock p
    unfold Proposal.DecodeRLP
    split
    · simp
    · split
      · simp
      · rw [hblock]
        simp
  · intro e hround hsmall
    have hcast : i64ofNat e.Round = (e.Round : Int) := i64ofNat_small hsmall
    simp only [MaxRound] at hround
    simp only [Vote.DecodeRLP, hcast]
    rw [if_pos]
    simp only [MaxRound]
    omega
  · intro e hlo hhi
    have hcast : i64ofNat e.Round = (e.Round : Int) - 2 ^ 64 :=
      i64ofNat_large hlo hhi
    simp only [Vote.DecodeRLP, hcast]
    rw [if_neg]
    simp only [MaxRound]
    omega

/-- Witness for `decode_rejections` at concrete wire inputs for each
conjunct. -/
theorem decode_rejections_witness :
    Proposal.DecodeRLP encBadNil = Except.error errBadValidRoundNil
    ∧ Proposal.DecodeRLP encBigRound ≠ Except.ok propW
    ∧ Proposal.DecodeRLP encBigVr = Except.error errBadRounds
    ∧ Proposal.DecodeRLP encNilBlock ≠ Except.ok propW
    ∧ Vote.DecodeRLP ⟨100, 1, 0⟩ = Except.error errInvalidMessage
    ∧ Vote.DecodeRLP voteWrap
        = Except.ok ⟨(voteWrap.Round : Int) - 2 ^ 64, voteWrap.Height, voteWrap.ProposedBlockHash⟩ :=
  ⟨decode_rejections.1 encBadNil rfl (by decide),
   decode_rejections.2.1 encBigRound (by decide) propW,
   decode_rejections.2.2.1 encBigVr rfl (by decide) (by decide),
   decode_rejections.2.2.2.1 encNilBlock rfl propW,
   decode_rejections.2.2.2.2.1 ⟨100, 1, 0⟩ (by decide) (by decide),
   decode_rejections.2.2.2.2.2 voteWrap (by decide) (by decide)⟩

/-! ## Theorems about the accountability proof codec (claim C7) -/

theorem typed_roundtrip (m : AcctMessage)
    (h : typedMessageAccepted m = true) :
    typedMessageDecodeRLP (typedMessageEncodeRLP m) = Except.ok m := by
  cases m <;>
    simp_all [typedMessageAccepted, typedMessageDecodeRLP,
      typedMessageEncodeRLP, AcctMessage.code, AcctMessage.body,
      PrevoteCode, PrecommitCode, LightProposalCode]

theorem decodeTypedList_roundtrip (l : List AcctMessage)
    (h : ∀ m ∈ l, typedMessageAccepted m = true) :
    decodeTypedList (l.map typedMessageEncodeRLP) = Except.ok l := by
  induction l with
  | nil => rfl
  | cons a t ih =>
    have ha : typedMessageAccepted a = true := h a (by simp)
    have ht : ∀ m ∈ t, typedMessageAccepted m = true :=
      fun m hm => h m (by simp [hm])
    simp [decodeTypedList, typed_roundtrip a ha, ih ht]

/-- C7: for every proof whose message and evidences are of the kinds
the evidence codec accepts (prevote, precommit, light proposal),
decoding the encoding returns the proof — in particular type, rule and
the order and content of the evidence list are preserved. -/
theorem proof_encode_decode_id (p : AcctProof)
    (hm : typedMessageAccepted p.message = true)
    (he : ∀ m ∈ p.evidences, typedMessageAccepted m = true) :
    AcctProof.DecodeRLP (AcctProof.EncodeRLP p) = Except.ok p := by
  obtain ⟨t, ru, m, evs⟩ := p
  simp only [AcctProof.EncodeRLP, AcctProof.DecodeRLP] at *
  rw [typed_roundtrip m hm, decodeTypedList_roundtrip evs he]

/-- Witness for `proof_encode_decode_id` at a concrete proof. -/
theorem proof_encode_decode_id_witness :
    AcctProof.DecodeRLP (AcctProof.EncodeRLP proofW) = Except.ok proofW :=
  proof_encode_decode_id proofW (by decide) (by decide)

/-! ## Theorems about the core state machine (claims C1, C2, C3, C4, C10) -/

/-- C1: the line-22 handler evaluated at a proposal for `(H, r, -1)` in
the propose step whose value is not marked valid while the node is
locked on that same value: the claimed rule yields a NIL prevote, but
the source — whose condition associates as
`(valid && locked_round == -1) || locked_value == value` — broadcasts a
prevote for the value. -/
theorem line22_prevotes_invalid_locked_value :
    cmC1.validRound = -1
    ∧ stateC1.step = Step.propose
    ∧ stateC1.msgCache.isValid cmC1.value = false
    ∧ stateC1.lockedRound = 0
    ∧ line22SpecCondition (stateC1.msgCache.isValid cmC1.value)
        stateC1.lockedRound stateC1.lockedValue cmC1.value = false
    ∧ (checkUponConditions stateC1 cmC1).map Prod.snd
        = Except.ok [Action.sendPrevote voteForValue] := by
  exact ⟨rfl, rfl, rfl, rfl, rfl, rfl⟩

/-- C3: on a prevote quorum at the current round in the prevote step
with the line-34 latch unset, the source schedules the prevote timer —
but arms it with `c.onTimeoutPrecommit`, so the timeout event it posts
carries the precommit step code, and the event-loop dispatch runs the
precommit timeout handler, which starts round `r + 1`; the prevote
handler, which the claim describes (precommit NIL, step to precommit),
would only run for the event the prevote callback posts. -/
theorem line34_schedules_precommit_callback :
    (checkUponConditions stateC3 cmC3).map Prod.snd
      = Except.ok [Action.scheduleTimeout TimerId.prevoteTimer 2 10
          TimeoutCallback.onTimeoutPrecommit]
    ∧ dispatchTimeoutEvent stateC3
        (TimeoutCallback.fire TimeoutCallback.onTimeoutPrecommit 2 10)
      = (stateC3, [Action.startRound 3])
    ∧ dispatchTimeoutEvent stateC3
        (TimeoutCallback.fire TimeoutCallback.onTimeoutPrevote 2 10)
      = ({ stateC3 with step := Step.precommit }, [Action.sendPrecommit voteForNil]) := by
  exact ⟨rfl, rfl, rfl⟩

theorem line22Go_skip (cm : ConsensusMessage) (r : Int) (x : CoreState × Step)
    (h : cm.msgType ≠ msgProposal) : line22Go cm r x = Except.ok (x, []) := by
  unfold line22Go
  rw [if_neg]
  intro hc
  exact h (by simpa using hc.1)

theorem line28Go_skip (cm : ConsensusMessage) (r : Int) (lh : Header)
    (p : Option ConsensusMessage) (x : CoreState × Step)
    (h : cm.msgType ∉ [msgProposal, msgPrevote]) :
    line28Go cm r lh p x = Except.ok (x, []) := by
  cases p with
  | none => rfl
  | some pp =>
    simp only [line28Go]
    rw [if_neg]
    intro hc
    exact h hc.1

theorem line34Go_skip (cm : ConsensusMessage) (r : Int) (hh : Nat) (lh : Header)
    (x : CoreState × Step) (h : cm.msgType ≠ msgPrevote) :
    line34Go cm r hh lh x = Except.ok (x, []) := by
  unfold line34Go
  rw [if_neg]
  intro hc
  exact h (by simpa using hc.1)

theorem line36Go_skip (cm : ConsensusMessage) (r : Int) (lh : Header)
    (p : Option ConsensusMessage) (x : CoreState × Step)
    (h : cm.msgType ∉ [msgProposal, msgPrevote]) :
    line36Go cm r lh p x = Except.ok (x, []) := by
  cases p with
  | none => rfl
  | some pp =>
    simp only [line36Go]
    rw [if_neg]
    intro hc
    exact h hc.1

theorem line44Go_skip (cm : ConsensusMessage) (r : Int) (lh : Header)
    (x : CoreState × Step) (h : cm.msgType ≠ msgPrevote) :
    line44Go cm r lh x = Except.ok (x, []) := by
  unfold line44Go
  rw [if_neg]
  intro hc
  exact h (by simpa using hc.1)

theorem line47Go_cases (cm : ConsensusMessage) (r : Int) (hh : Nat) (lh : Header)
    (x : CoreState × Step) :
    line47Go cm r hh lh x = Except.ok (x, [])
    ∨ line47Go cm r hh lh x = Except.ok (x,
        [Action.scheduleTimeout TimerId.precommitTimer r hh
          TimeoutCallback.onTimeoutPrecommit]) := by
  by_cases hc : cm.msgType ∈ [msgPrecommit] ∧ cm.round = r ∧
      x.1.msgCache.precommitQuorum none r lh = true ∧ x.1.line47Executed = false
  · right
    unfold line47Go
    rw [if_pos hc]
  · left
    unfold line47Go
    rw [if_neg hc]

theorem line55Go_noop (cm : ConsensusMessage) (r : Int) (lh : Header)
    (x : CoreState × Step) : line55Go cm r lh x = Except.ok (x, []) := by
  unfold line55Go
  split <;> rfl

theorem coreM_bind_ok {α β : Type} (a : α) (f : α → CoreM β) :
    (Except.ok a : CoreM α) >>= f = f a := rfl

theorem coreM_bind_error {α β : Type} (e : GoPanic) (f : α → CoreM β) :
    (Except.error e : CoreM α) >>= f = Except.error e := rfl

theorem coreM_bind_inv {α β : Type} {m : CoreM α} {f : α → CoreM β} {b : β}
    (h : m >>= f = Except.ok b) : ∃ a, m = Except.ok a ∧ f a = Except.ok b := by
  cases m with
  | error e => rw [coreM_bind_error] at h; cases h
  | ok a => exact ⟨a, rfl, by rwa [coreM_bind_ok] at h⟩

theorem line22Go_inv {cm : ConsensusMessage} {r : Int} {x y : CoreState × Step}
    {a : List Action} (hres : line22Go cm r x = Except.ok (y, a)) :
    y.1.msgCache = x.1.msgCache ∧ ∀ bb : Block, Action.verifyProposal bb ∉ a := by
  unfold line22Go at hres
  repeat' split at hres
  all_goals simp_all
  all_goals (obtain ⟨h1, h2⟩ := hres; subst h2; subst h1; simp)

theorem line28Go_inv {cm : ConsensusMessage} {r : Int} {lh : Header}
    {p : Option ConsensusMessage} {x y : CoreState × Step} {a : List Action}
    (hres : line28Go cm r lh p x = Except.ok (y, a)) :
    y.1.msgCache = x.1.msgCache ∧ ∀ bb : Block, Action.verifyProposal bb ∉ a := by
  cases p with
  | none => simp only [line28Go] at hres; simp_all
  | some pp =>
    simp only [line28Go] at hres
    repeat' split at hres
    all_goals simp_all
    all_goals (obtain ⟨h1, h2⟩ := hres; subst h2; subst h1; simp)

theorem line34Go_inv {cm : ConsensusMessage} {r : Int} {hh : Nat} {lh : Header}
    {x y : CoreState × Step} {a : List Action}
    (hres : line34Go cm r hh lh x = Except.ok (y, a)) :
    y.1.msgCache = x.1.msgCache ∧ ∀ bb : Block, Action.verifyProposal bb ∉ a := by
  unfold line34Go at hres
  repeat' split at hres
  all_goals simp_all
  all_goals (obtain ⟨h1, h2⟩ := hres; subst h2; subst h1; simp)

theorem line36Go_inv {cm : ConsensusMessage} {r : Int} {lh : Header}
    {p : Option ConsensusMessage} {x y : CoreState × Step} {a : List Action}
    (hres : line36Go cm r lh p x = Except.ok (y, a)) :
    y.1.msgCache = x.1.msgCache ∧ ∀ bb : Block, Action.verifyProposal bb ∉ a := by
  cases p with
  | none => simp only [line36Go] at hres; simp_all
  | some pp =>
    simp only [line36Go] at hres
    repeat' split at hres
    all_goals simp_all
    all_goals (obtain ⟨h1, h2⟩ := hres; subst h2; subst h1; simp)

theorem line44Go_inv {cm : ConsensusMessage} {r : Int} {lh : Header}
    {x y : CoreState × Step} {a : List Action}
    (hres : line44Go cm r lh x = Except.ok (y, a)) :
    y.1.msgCache = x.1.msgCache ∧ ∀ bb : Block, Action.verifyProposal bb ∉ a := by
  unfold line44Go at hres
  repeat' split at hres
  all_goals simp_all
  all_goals (obtain ⟨h1, h2⟩ := hres; subst h2; subst h1; simp)

theorem line47Go_inv {cm : ConsensusMessage} {r : Int} {hh : Nat} {lh : Header}
    {x y : CoreState × Step} {a : List Action}
    (hres : line47Go cm r hh lh x = Except.ok (y, a)) :
    y.1.msgCache = x.1.msgCache ∧ ∀ bb : Block, Action.verifyProposal bb ∉ a := by
  unfold line47Go at hres
  repeat' split at hres
  all_goals simp_all
  all_goals (obtain ⟨h1, h2⟩ := hres; subst h2; subst h1; simp)

theorem line49Go_inv {cm : ConsensusMessage} {lh : Header}
    {p : Option ConsensusMessage} {x y : CoreState × Step} {a : List Action}
    (hres : line49Go cm lh p x = Except.ok (y, a)) :
    y.1.msgCache = x.1.msgCache ∧ ∀ bb : Block, Action.verifyProposal bb ∉ a := by
  cases p with
  | none => simp only [line49Go] at hres; simp_all
  | some pp =>
    simp only [line49Go] at hres
    repeat' split at hres
    all_goals simp_all
    all_goals (obtain ⟨h1, h2⟩ := hres; subst h2; subst h1; simp)

theorem line55Go_inv {cm : ConsensusMessage} {r : Int} {lh : Header}
    {x y : CoreState × Step} {a : List Action}
    (hres : line55Go cm r lh x = Except.ok (y, a)) :
    y.1.msgCache = x.1.msgCache ∧ ∀ bb : Block, Action.verifyProposal bb ∉ a := by
  unfold line55Go at hres
  repeat' split at hres
  all_goals simp_all

theorem checkUpon_inv {c : CoreState} {cm : ConsensusMessage} {c2 : CoreState}
    {acts : List Action}
    (hres : checkUponConditions c cm = Except.ok (c2, acts)) :
    c2.msgCache = c.msgCache ∧ ∀ bb : Block, Action.verifyProposal bb ∉ acts := by
  unfold checkUponConditions at hres
  obtain ⟨⟨x1, a1⟩, h1, hres⟩ := coreM_bind_inv hres
  obtain ⟨⟨x2, a2⟩, h2, hres⟩ := coreM_bind_inv hres
  obtain ⟨⟨x3, a3⟩, h3, hres⟩ := coreM_bind_inv hres
  obtain ⟨⟨x4, a4⟩, h4, hres⟩ := coreM_bind_inv hres
  obtain ⟨⟨x5, a5⟩, h5, hres⟩ := coreM_bind_inv hres
  obtain ⟨⟨x6, a6⟩, h6, hres⟩ := coreM_bind_inv hres
  obtain ⟨⟨x7, a7⟩, h7, hres⟩ := coreM_bind_inv hres
  obtain ⟨⟨x8, a8⟩, h8, hres⟩ := coreM_bind_inv hres
  have i1 := line22Go_inv h1
  have i2 := line28Go_inv h2
  have i3 := line34Go_inv h3
  have i4 := line36Go_inv h4
  have i5 := line44Go_inv h5
  have i6 := line47Go_inv h6
  have i7 := line49Go_inv h7
  have i8 := line55Go_inv h8
  have hfin : x8.1 = c2 ∧ a1 ++ a2 ++ a3 ++ a4 ++ a5 ++ a6 ++ a7 ++ a8 = acts := by
    simpa using hres
  obtain ⟨hc2, hacts⟩ := hfin
  constructor
  · rw [← hc2, i8.1, i7.1, i6.1, i5.1, i4.1, i3.1, i2.1, i1.1]
  · intro bb hmem
    rw [← hacts] at hmem
    simp only [List.mem_append] at hmem
    rcases hmem with ((((((hm | hm) | hm) | hm) | hm) | hm) | hm) | hm
    · exact i1.2 bb hm
    · exact i2.2 bb hm
    · exact i3.2 bb hm
    · exact i4.2 bb hm
    · exact i5.2 bb hm
    · exact i6.2 bb hm
    · exact i7.2 bb hm
    · exact i8.2 bb hm

/-- C2 (amended): on a precommit message completing a precommit quorum
for the valid value of a matching proposal, `checkUponConditions`
commits the block, advances the height to the block number plus one and
resets the locked and valid state — but it never calls
`start_round(0)`: the round restart after a commit is an open TODO in
the source. -/
theorem line49_commit_no_start_round (c : CoreState) (cm pp : ConsensusMessage)
    (b : Block)
    (ht : cm.msgType = msgPrecommit)
    (hp : c.msgCache.matchingProposal cm = some pp)
    (hq : c.msgCache.precommitQuorum (some pp.value) pp.round c.lastHeader = true)
    (hv : c.msgCache.isValid pp.value = true)
    (hb : c.msgCache.value pp.value = some b) :
    ∃ acts,
      checkUponConditions c cm = Except.ok
        ({ c with height := b.number + 1, lockedRound := -1, lockedValue := none,
                  validRound := -1, validValue := none }, acts)
      ∧ Action.commit b pp.round ∈ acts
      ∧ Action.startRound 0 ∉ acts := by
  have h0 : cm.msgType ≠ msgProposal := by rw [ht]; decide
  have h1 : cm.msgType ∉ [msgProposal, msgPrevote] := by rw [ht]; decide
  have h2 : cm.msgType ≠ msgPrevote := by rw [ht]; decide
  have hmem : cm.msgType ∈ [msgProposal, msgPrecommit] := by rw [ht]; decide
  have h22 := line22Go_skip cm c.round (c, c.step) h0
  have h28 := line28Go_skip cm c.round c.lastHeader
    (c.msgCache.matchingProposal cm) (c, c.step) h1
  have h34 := line34Go_skip cm c.round c.height c.lastHeader (c, c.step) h2
  have h36 := line36Go_skip cm c.round c.lastHeader
    (c.msgCache.matchingProposal cm) (c, c.step) h1
  have h44 := line44Go_skip cm c.round c.lastHeader (c, c.step) h2
  have h49 : line49Go cm c.lastHeader (c.msgCache.matchingProposal cm) (c, c.step)
      = Except.ok
          (({ c with height := b.number + 1, lockedRound := -1,
                     lockedValue := none, validRound := -1,
                     validValue := none }, c.step),
           [Action.commit b pp.round]) := by
    rw [hp]
    simp only [line49Go]
    rw [if_pos ⟨hmem, hq⟩, if_pos hv, hb]
  rcases line47Go_cases cm c.round c.height c.lastHeader (c, c.step) with h47 | h47
  · refine ⟨[Action.commit b pp.round], ?_, by simp, by simp⟩
    simp only [checkUponConditions, h22, h28, h34, h36, h44, h47, h49,
      line55Go_noop, coreM_bind_ok, List.nil_append, List.append_nil]
  · refine ⟨[Action.scheduleTimeout TimerId.precommitTimer c.round c.height
        TimeoutCallback.onTimeoutPrecommit, Action.commit b pp.round],
      ?_, by simp, by simp⟩
    simp only [checkUponConditions, h22, h28, h34, h36, h44, h47, h49,
      line55Go_noop, coreM_bind_ok, List.nil_append, List.append_nil,
      List.singleton_append]

/-- Witness for `line49_commit_no_start_round` at the concrete state
`stateC2` and precommit `cmC2`. -/
theorem line49_commit_no_start_round_witness :
    ∃ acts,
      checkUponConditions stateC2 cmC2 = Except.ok
        ({ stateC2 with height := blockB.number + 1, lockedRound := -1,
                        lockedValue := none, validRound := -1,
                        validValue := none }, acts)
      ∧ Action.commit blockB proposalC2.round ∈ acts
      ∧ Action.startRound 0 ∉ acts :=
  line49_commit_no_start_round stateC2 cmC2 proposalC2 blockB rfl rfl rfl rfl rfl

/-- C2 counterexample: at the concrete quorum state the line-49 handler
emits only the commit — no `start_round(0)` — while committing the
block and resetting the state, so the claimed `start_round(0)` call
does not happen. -/
theorem line49_no_start_round_cex :
    (checkUponConditions stateC2 cmC2).map Prod.snd
      = Except.ok [Action.commit blockB 0]
    ∧ (checkUponConditions stateC2 cmC2).map
        (fun y => (y.1.height, y.1.lockedRound, y.1.lockedValue,
                   y.1.validRound, y.1.validValue))
      = Except.ok (11, -1, none, -1, none)
    ∧ Action.startRound 0 ∉ [Action.commit blockB 0] := by
  exact ⟨rfl, rfl, by simp⟩

/-- C4: for every proposal message at the current height that passes
the membership, signature and proposer checks, the handler performs no
block verification at all and leaves the message cache — in particular
every validity flag — unchanged: the `VerifyProposal` call of the
source stands after a `return` and is unreachable, contradicting the
claim that verification runs exactly once before the validity flag is
set. -/
theorem proposal_never_verified (env : GoEnv) (c : CoreState) (m : Message)
    (cm : ConsensusMessage)
    (hcode : m.code = msgProposal)
    (hmem : c.committeeMember m.address = true)
    (hsig : env.checkValidatorSignature c.lastHeader m.payloadNoSig m.signature
      = Except.ok m.address)
    (hprop : c.isProposerMsgF cm.round m.address = true)
    (c2 : CoreState) (acts : List Action)
    (hres : handleCurrentHeightMessage env c m cm
      = Except.ok (Except.ok (c2, acts))) :
    c2.msgCache = c.msgCache ∧ ∀ bb : Block, Action.verifyProposal bb ∉ acts := by
  unfold handleCurrentHeightMessage at hres
  rw [hmem, hsig] at hres
  simp only [not_true_eq_false, if_false, ne_eq, not_false_eq_true,
    if_pos hcode, hprop, if_true] at hres
  cases hcu : checkUponConditions c cm with
  | error e => rw [hcu] at hres; cases hres
  | ok v =>
    obtain ⟨c3, a3⟩ := v
    rw [hcu] at hres
    have : c3 = c2 ∧ a3 = acts := by
      constructor <;> [skip; skip] <;> injection hres with h2 <;> injection h2 with h3 <;>
        [exact congrArg Prod.fst h3; exact congrArg Prod.snd h3]
    obtain ⟨hc3, ha3⟩ := this
    subst hc3
    subst ha3
    exact checkUpon_inv hcu

/-- Witness for `proposal_never_verified` at a concrete environment,
state and proposal message. -/
theorem proposal_never_verified_witness :
    mC4.code = msgProposal
    ∧ baseState.committeeMember mC4.address = true
    ∧ envStub.checkValidatorSignature baseState.lastHeader mC4.payloadNoSig
        mC4.signature = Except.ok mC4.address
    ∧ baseState.isProposerMsgF cmC4.round mC4.address = true
    ∧ handleCurrentHeightMessage envStub baseState mC4 cmC4
        = Except.ok (Except.ok (baseState, []))
    ∧ (baseState.msgCache = baseState.msgCache
        ∧ ∀ bb : Block, Action.verifyProposal bb ∉ ([] : List Action)) :=
  ⟨rfl, rfl, rfl, rfl, rfl,
   proposal_never_verified envStub baseState mC4 cmC4 rfl rfl rfl rfl
     baseState [] rfl⟩

/-- C10: `handleMsg` is idempotent on byte-identical payloads — for
every payload whose hash is already present in the message cache it
returns nil immediately, for every codec and cache mutator (so nothing
is decoded), leaving the state, and so the cache and the round state,
unchanged and emitting no action. -/
theorem handleMsg_duplicate_payload (env : GoEnv) (c : CoreState)
    (payload : List Nat)
    (hcached : (c.msgCache.Message (env.keccak256 payload)).isSome = true) :
    handleMsg env c payload = Except.ok (Except.ok (c, [])) := by
  unfold handleMsg
  rw [if_pos hcached]

/-- Witness for `handleMsg_duplicate_payload` at a concrete cached
payload. -/
theorem handleMsg_duplicate_payload_witness :
    (stateC10.msgCache.Message (envStub.keccak256 [9, 9, 9])).isSome = true
    ∧ handleMsg envStub stateC10 [9, 9, 9] = Except.ok (Except.ok (stateC10, [])) :=
  ⟨rfl, handleMsg_duplicate_payload envStub stateC10 [9, 9, 9] rfl⟩

end Autonity
